import Mathlib

/-!
Verification of the role-gated retrieval assistant (RBAC RAG).

The development shallowly embeds the repository's Python sources:
  * `database.py`  — credential store over MongoDB + bcrypt,
  * `ingest.py`    — per-department document ingestion into Chroma collections,
  * `app.py`       — role table, index loading, and top-k retrieval.

External collaborators (bcrypt, MongoDB, Chroma, the embedding backend) are
modelled at their interfaces: bcrypt as an idealised collision-free salted
hash, MongoDB as an in-memory list of records with a unique index on
`username` plus an explicit connectivity flag (a lost connection makes every
driver call raise, which the Python code catches), Chroma as a map from
persist paths to an optional collection of documents, and vector similarity
as an arbitrary scoring function parameter.
-/

/-! ### Credential store (`src/database.py`) -/

/-- Model of a bcrypt hash: `bcrypt.hashpw(password, salt)` produces a value
from which `bcrypt.checkpw` succeeds exactly on the original plaintext
(idealised as collision-free, per bcrypt's interface contract). -/
structure BcryptHash where
  salt : String
  digest : String
deriving DecidableEq, Repr

/-- `bcrypt.hashpw(password, salt)`. -/
def hashpw (password salt : String) : BcryptHash := ⟨salt, password⟩

/-- `bcrypt.checkpw(password, stored)`: recomputes the salted hash and
compares; succeeds iff the plaintext matches. -/
def checkpw (password : String) (stored : BcryptHash) : Bool :=
  stored.digest == password

/-- A user document as inserted by `Database.add_user`: `_id` is modelled by
`id`, timestamps by naturals. -/
structure UserRecord where
  id : Nat
  username : String
  password : BcryptHash
  role : String
  created_at : Nat
  last_login : Option Nat
deriving DecidableEq, Repr

/-- The dictionary `verify_user` returns on success (username, role,
last_login as read from the fetched document). -/
structure UserView where
  username : String
  role : String
  last_login : Option Nat
deriving DecidableEq, Repr

/-- State of the Mongo-backed store: the `users` collection (with its unique
index on `username` reflected in `add_user`'s duplicate handling), the next
fresh `_id`, and a connectivity flag — when `connected = false` every driver
call raises, which the Python methods catch and turn into `None`/`False`. -/
structure DBState where
  connected : Bool
  users : List UserRecord
  nextId : Nat
deriving DecidableEq, Repr

/-- `Database.add_user`: rejects empty fields, hashes the password, lowercases
the role, and inserts; a `DuplicateKeyError` from the unique username index
(or any driver exception, e.g. lost connectivity) yields `False` with the
store unchanged. `salt` stands for `bcrypt.gensalt()`, `now` for
`datetime.utcnow()`. -/
def add_user (db : DBState) (username password role : String) (salt : String) (now : Nat) :
    Bool × DBState :=
  if username = "" || password = "" || role = "" then (false, db)
  else if !db.connected then (false, db)
  else if db.users.any (fun u => u.username == username) then (false, db)
  else
    (true,
      { db with
        users := db.users ++
          [⟨db.nextId, username, hashpw password salt, role.toLower, now, none⟩],
        nextId := db.nextId + 1 })

/-- The `update_one` inside `verify_user`: sets `last_login` on the document
with the given `_id`, leaving every other field and record untouched. -/
def setLastLogin (users : List UserRecord) (id : Nat) (now : Nat) : List UserRecord :=
  users.map (fun u => if u.id == id then { u with last_login := some now } else u)

/-- `Database.verify_user`: fetches the user by username, checks the bcrypt
hash, on success updates `last_login` and returns the view built from the
document fetched *before* the update; unknown user, wrong password, and any
driver exception (e.g. the store being unreachable) all return `None`. -/
def verify_user (db : DBState) (username password : String) (now : Nat) :
    Option UserView × DBState :=
  if !db.connected then (none, db)
  else
    match db.users.find? (fun u => u.username == username) with
    | none => (none, db)
    | some user =>
      if checkpw password user.password then
        (some ⟨user.username, user.role, user.last_login⟩,
          { db with users := setLastLogin db.users user.id now })
      else (none, db)

/-! ### Partition registry (`src/app.py`, `ROLE_ACCESS`) -/

/-- The literal `ROLE_ACCESS` table of `app.py`. -/
def ROLE_ACCESS : List (String × List String) :=
  [("hr", ["hr", "general"]),
   ("engineering", ["engineering", "general"]),
   ("finance", ["finance", "general"]),
   ("marketing", ["marketing", "general"])]

/-- Failure mode of the registry lookup. -/
inductive RegistryError
  | unknownRole
deriving DecidableEq, Repr

/-- Modelled from the spec: `accessiblePartitions(role)` — the function
wrapper around the `ROLE_ACCESS` table is not itself present in `src/`
(only the literal table is); per the spec it is a pure lookup in the fixed
table that fails with `UnknownRole` on a role outside the table. -/
def accessiblePartitions (role : String) : Except RegistryError (List String) :=
  match ROLE_ACCESS.lookup role with
  | some ps => Except.ok ps
  | none => Except.error RegistryError.unknownRole

/-- The department list ingestion iterates over (`ingest.py`, `main`);
identical to the key set of `ROLE_ACCESS`. -/
def departments : List String := ["hr", "engineering", "finance", "marketing"]

/-! ### Embedding configuration (`src/ingest.py` and `src/app.py`) -/

/-- The keyword arguments passed to the `CohereEmbedding` constructor. -/
structure CohereEmbeddingConfig where
  model_name : String
  input_type : String
deriving DecidableEq, Repr

/-- The embedding model constructed at module load in `ingest.py`. -/
def ingestEmbedModel : CohereEmbeddingConfig :=
  ⟨"embed-english-v3.0", "search_document"⟩

/-- The embedding model constructed inside `load_vector_index` in `app.py`
(used as `Settings.embed_model` and as the index's `embed_model` at query
time). -/
def appEmbedModel : CohereEmbeddingConfig :=
  ⟨"embed-english-v3.0", "search_document"⟩

/-! ### Ingestion (`src/ingest.py`) -/

/-- A file on disk as ingestion sees it: name, extension, contents. -/
structure IngestFile where
  name : String
  suffix : String
  content : String
deriving DecidableEq, Repr

/-- A llama-index `Document` as built by `process_documents`: text plus the
`source`/`department`/`type` metadata (chunking inside
`VectorStoreIndex.from_documents` is modelled as one chunk per document; it
preserves the metadata, which is all the claims depend on). -/
structure Document where
  text : String
  source : String
  department : String
  docType : String
deriving DecidableEq, Repr

/-- The extension filter in `process_documents`. -/
def allowedSuffixes : List String := [".md", ".txt", ".csv"]

/-- The directory tree under `./resources/data`: directory name ↦ files. -/
def FileSystem : Type := String → List IngestFile

/-- Persisted Chroma state: persist path ↦ contents of its single
`"documents"` collection, `none` when that collection was never created. -/
def ChromaStore : Type := String → Option (List Document)

/-- The per-department persist location used by both `ingest.py` and
`app.py`. -/
def persistDir (department : String) : String := "./chroma_db/" ++ department

/-- The department-specific documents collected by `process_documents`:
files with an allowed extension, tagged with the department name. -/
def deptDocuments (department : String) (files : List IngestFile) : List Document :=
  (files.filter (fun f => allowedSuffixes.contains f.suffix)).map
    (fun f => ⟨f.content, f.name, department, "department_specific"⟩)

/-- The shared documents collected by `process_documents` from the
`general` directory, tagged `"general"`. -/
def generalDocuments (files : List IngestFile) : List Document :=
  (files.filter (fun f => allowedSuffixes.contains f.suffix)).map
    (fun f => ⟨f.content, f.name, "general", "general"⟩)

/-- `process_documents(department)`: deletes and recreates the
`"documents"` collection at the department's persist path, then indexes the
department's own files followed by the `general` files (the early return on
an empty document list still leaves the freshly created empty collection in
place). Only this department's path changes. -/
def process_documents (fs : FileSystem) (store : ChromaStore) (department : String) :
    ChromaStore :=
  fun p =>
    if p = persistDir department then
      some (deptDocuments department (fs department) ++ generalDocuments (fs "general"))
    else store p

/-- What ingestion leaves in a role's collection: its own directory's
documents followed by the shared `general` documents. -/
def roleCollection (fs : FileSystem) (role : String) : List Document :=
  deptDocuments role (fs role) ++ generalDocuments (fs "general")

/-- `main()` of `ingest.py`: runs `process_documents` for each department. -/
def ingestMain (fs : FileSystem) (store : ChromaStore) : ChromaStore :=
  departments.foldl (process_documents fs) store

/-! ### Index loading and retrieval (`src/app.py`) -/

/-- Failure modes of `load_vector_index`: the missing-credential
`ValueError` and the `get_collection` failure when the partition's
collection does not exist (both are caught and abort the request via
`st.stop()`, modelled as an error result). -/
inductive LoadError
  | missingApiKey
  | indexUnavailable
deriving DecidableEq, Repr

/-- The handle `load_vector_index` returns: the index over the role's
collection, bound to the embedding configuration built in `app.py`. -/
structure VectorIndex where
  embed_model : CohereEmbeddingConfig
  docs : List Document
deriving DecidableEq, Repr

/-- `load_vector_index(role)`: requires `COHERE_API_KEY`, opens the Chroma
client at `./chroma_db/{role}` and calls `get_collection("documents")` —
which raises when the collection does not exist (unlike the
`get_or_create_collection` used by ingestion). -/
def load_vector_index (cohereApiKey : Option String) (store : ChromaStore) (role : String) :
    Except LoadError VectorIndex :=
  match cohereApiKey with
  | none => Except.error LoadError.missingApiKey
  | some _ =>
    match store (persistDir role) with
    | none => Except.error LoadError.indexUnavailable
    | some docs => Except.ok ⟨appEmbedModel, docs⟩

/-- Descending-score order on scored documents (higher similarity first). -/
def scoreGE (a b : Document × ℚ) : Prop := b.2 ≤ a.2

instance : DecidableRel scoreGE := fun a b => inferInstanceAs (Decidable (b.2 ≤ a.2))

instance : IsTotal (Document × ℚ) scoreGE := ⟨fun a b => le_total b.2 a.2⟩

instance : IsTrans (Document × ℚ) scoreGE := ⟨fun _ _ _ h1 h2 => le_trans h2 h1⟩

/-- Scoring of every chunk of the loaded collection against the query, with
the similarity function of the vector backend left as a parameter. -/
def scoreDocs (sim : String → String → ℚ) (q : String) (docs : List Document) :
    List (Document × ℚ) :=
  docs.map (fun d => (d, sim q d.text))

/-- Top-k nearest-neighbour ranking over the loaded collection: stable sort
by non-increasing score, then the first `k` (the query engine's
`similarity_top_k`). -/
def rankTopK (sim : String → String → ℚ) (q : String) (docs : List Document) (k : Nat) :
    List (Document × ℚ) :=
  (List.insertionSort scoreGE (scoreDocs sim q docs)).take k

/-- The `similarity_top_k=3` passed to `index.as_query_engine` in
`chat_interface`. -/
def similarityTopK : Nat := 3

/-- Retrieval as wired in `chat_interface`: load the role's index via
`load_vector_index`, then rank its chunks against the query and keep the
top `k`. -/
def retrieve (sim : String → String → ℚ) (cohereApiKey : Option String)
    (store : ChromaStore) (role q : String) (k : Nat) :
    Except LoadError (List (Document × ℚ)) :=
  (load_vector_index cohereApiKey store role).map (fun idx => rankTopK sim q idx.docs k)

/-- A store with no persisted collection anywhere (ingestion never ran). -/
def emptyStore : ChromaStore := fun _ => none

/-! ### Theorems -/

/-- C2: for every role in the closed set {hr, engineering, finance,
marketing}, `accessiblePartitions` returns exactly the pair of the role's
own partition and `"general"` — never another role's partition — and for
every name outside that set it fails with `UnknownRole` instead of
returning a set. -/
theorem accessiblePartitions_exact (role : String) :
    (role ∈ departments → accessiblePartitions role = Except.ok [role, "general"]) ∧
    (role ∉ departments →
      accessiblePartitions role = Except.error RegistryError.unknownRole) := by
  constructor
  · intro h
    fin_cases h <;> rfl
  · intro h
    simp only [departments, List.mem_cons, List.not_mem_nil, or_false, not_or] at h
    obtain ⟨h1, h2, h3, h4⟩ := h
    have e1 : (role == "hr") = false := beq_eq_false_iff_ne.mpr h1
    have e2 : (role == "engineering") = false := beq_eq_false_iff_ne.mpr h2
    have e3 : (role == "finance") = false := beq_eq_false_iff_ne.mpr h3
    have e4 : (role == "marketing") = false := beq_eq_false_iff_ne.mpr h4
    simp [accessiblePartitions, ROLE_ACCESS, List.lookup, e1, e2, e3, e4]

/-- Witness for C2 at the concrete role `"engineering"` and the concrete
non-role `"intern"`. -/
theorem accessiblePartitions_exact_witness :
    accessiblePartitions "engineering" = Except.ok ["engineering", "general"] ∧
    accessiblePartitions "intern" = Except.error RegistryError.unknownRole :=
  ⟨(accessiblePartitions_exact "engineering").1 (by decide),
   (accessiblePartitions_exact "intern").2 (by decide)⟩

/-- C3 counterexample: the claim that the query text is embedded under a
configuration distinct from the document mode used at ingestion is false —
`app.py` constructs its `CohereEmbedding` with exactly the same arguments
as `ingest.py`, including `input_type="search_document"` (document mode),
so the two configurations are equal rather than distinct. -/
theorem query_embedding_not_distinct_mode :
    appEmbedModel = ingestEmbedModel ∧ appEmbedModel.input_type = "search_document" :=
  ⟨rfl, rfl⟩

/-- C3 amended: the embedding model configured for query time has the same
model identity and version as the one used at ingestion, but also the same
`input_type` — the document mode `"search_document"` — rather than a
distinct query-mode configuration. -/
theorem query_embedding_same_model_and_input_type :
    appEmbedModel.model_name = ingestEmbedModel.model_name ∧
    appEmbedModel.input_type = ingestEmbedModel.input_type ∧
    ingestEmbedModel.input_type = "search_document" :=
  ⟨rfl, rfl, rfl⟩

/-- C8: when the partition's persisted collection does not exist, loading
the index fails with `IndexUnavailable` instead of returning an
empty-but-valid handle. -/
theorem load_vector_index_missing_collection (key : String) (store : ChromaStore)
    (role : String) (h : store (persistDir role) = none) :
    load_vector_index (some key) store role = Except.error LoadError.indexUnavailable := by
  simp [load_vector_index, h]

/-- Witness for C8: loading `"nonexistent_partition"` from a store that was
never ingested fails with `IndexUnavailable`. -/
theorem load_vector_index_missing_collection_witness :
    load_vector_index (some "api-key") emptyStore "nonexistent_partition" =
      Except.error LoadError.indexUnavailable :=
  load_vector_index_missing_collection "api-key" emptyStore "nonexistent_partition" rfl

/-! ### Credential-store theorems -/

/-- The demo user `Tony` as provisioned by `initialize_users`. -/
def tonyRecord : UserRecord :=
  ⟨0, "Tony", hashpw "password123" "salt0", "engineering", 0, none⟩

/-- A reachable store holding `Tony`. -/
def dbUp : DBState := ⟨true, [tonyRecord], 1⟩

/-- The same store with connectivity lost: every driver call raises. -/
def dbDown : DBState := ⟨false, [tonyRecord], 1⟩

/-- C4 counterexample: a store failure during `verify_user` (connectivity
lost, with the correct password supplied) and an authentication failure
(store reachable, wrong password) both yield `None` — the caller observes
the same result, so the two conditions are not distinguished. -/
theorem verify_store_failure_not_distinguished :
    dbDown.connected = false ∧
    checkpw "password123" tonyRecord.password = true ∧
    dbUp.connected = true ∧
    checkpw "wrongpass" tonyRecord.password = false ∧
    (verify_user dbDown "Tony" "password123" 7).fst = none ∧
    (verify_user dbDown "Tony" "password123" 7).fst =
      (verify_user dbUp "Tony" "wrongpass" 7).fst := by
  decide

/-- C4 amended: `verify_user` returns `None` both when the credential store
is unreachable (the driver exception is swallowed by the catch-all handler)
and when the password is wrong, so callers cannot distinguish the two
conditions from the result; the distinction exists only in the log
messages. -/
theorem verify_failures_both_none (db : DBState) (u p : String) (now : Nat) :
    (db.connected = false → verify_user db u p now = (none, db)) ∧
    (∀ r, db.users.find? (fun x => x.username == u) = some r →
      checkpw p r.password = false → verify_user db u p now = (none, db)) := by
  constructor
  · intro h
    simp [verify_user, h]
  · intro r hr hpw
    cases hc : db.connected with
    | false => simp [verify_user, hc]
    | true => simp [verify_user, hc, hr, hpw]

/-- Witness for C4's amended statement: both failure modes at concrete
stores return `None` with the store unchanged. -/
theorem verify_failures_both_none_witness :
    verify_user dbDown "Tony" "password123" 7 = (none, dbDown) ∧
    verify_user dbUp "Tony" "wrongpass" 7 = (none, dbUp) :=
  ⟨(verify_failures_both_none dbDown "Tony" "password123" 7).1 (by decide),
   (verify_failures_both_none dbUp "Tony" "wrongpass" 7).2 tonyRecord (by decide) (by decide)⟩

/-- C5: for a provisioned user with a stored correct password, `verify_user`
with the correct password succeeds and sets that user's `last_login` (all
other fields, and all other records, unchanged); with any incorrect
password it fails and leaves the whole store — `last_login` included —
unchanged. -/
theorem verify_user_success_and_failure_frame (db : DBState) (uname pw pw2 : String)
    (now : Nat) (u : UserRecord)
    (hconn : db.connected = true)
    (hfind : db.users.find? (fun x => x.username == uname) = some u)
    (hpw : checkpw pw u.password = true)
    (hpw2 : checkpw pw2 u.password = false) :
    (verify_user db uname pw now).fst = some ⟨u.username, u.role, u.last_login⟩ ∧
    (∃ r ∈ (verify_user db uname pw now).snd.users,
      r.id = u.id ∧ r.username = u.username ∧ r.password = u.password ∧
        r.role = u.role ∧ r.created_at = u.created_at ∧ r.last_login = some now) ∧
    (∀ r ∈ (verify_user db uname pw now).snd.users, r.id ≠ u.id → r ∈ db.users) ∧
    verify_user db uname pw2 now = (none, db) := by
  have hmem : u ∈ db.users := List.mem_of_find?_eq_some hfind
  have hv : verify_user db uname pw now =
      (some ⟨u.username, u.role, u.last_login⟩,
        { db with users := setLastLogin db.users u.id now }) := by
    simp [verify_user, hconn, hfind, hpw]
  refine ⟨by rw [hv], ?_, ?_, by simp [verify_user, hconn, hfind, hpw2]⟩
  · rw [hv]
    refine ⟨{ u with last_login := some now }, ?_, rfl, rfl, rfl, rfl, rfl, rfl⟩
    have h := List.mem_map_of_mem
      (fun x => if x.id == u.id then { x with last_login := some now } else x) hmem
    simpa [setLastLogin] using h
  · rw [hv]
    intro r hr hne
    simp only [setLastLogin, List.mem_map] at hr
    obtain ⟨x, hx, rfl⟩ := hr
    by_cases hxe : x.id = u.id
    · simp [hxe] at hne
    · simpa [hxe] using hx

/-- Witness for C5 at the demo store: correct password succeeds and stamps
`last_login`; a wrong password fails and leaves the store untouched. -/
theorem verify_user_success_and_failure_frame_witness :
    (verify_user dbUp "Tony" "password123" 7).fst =
      some ⟨tonyRecord.username, tonyRecord.role, tonyRecord.last_login⟩ ∧
    (∃ r ∈ (verify_user dbUp "Tony" "password123" 7).snd.users,
      r.id = tonyRecord.id ∧ r.username = tonyRecord.username ∧
        r.password = tonyRecord.password ∧ r.role = tonyRecord.role ∧
        r.created_at = tonyRecord.created_at ∧ r.last_login = some 7) ∧
    (∀ r ∈ (verify_user dbUp "Tony" "password123" 7).snd.users,
      r.id ≠ tonyRecord.id → r ∈ dbUp.users) ∧
    verify_user dbUp "Tony" "wrongpass" 7 = (none, dbUp) :=
  verify_user_success_and_failure_frame dbUp "Tony" "password123" "wrongpass" 7 tonyRecord
    (by decide) (by decide) (by decide) (by decide)

/-- Helper: the `last_login` update preserves the result of the username
lookup up to updating the found record itself (usernames are untouched, so
the same position is found). -/
theorem find?_setLastLogin (users : List UserRecord) (uname : String) (u : UserRecord)
    (id now : Nat)
    (hfind : users.find? (fun x => x.username == uname) = some u) :
    (setLastLogin users id now).find? (fun x => x.username == uname) =
      some (if u.id == id then { u with last_login := some now } else u) := by
  induction users with
  | nil => simp at hfind
  | cons a t ih =>
    have husr : (if a.id == id then { a with last_login := some now } else a).username
        = a.username := by split <;> rfl
    cases ha : (a.username == uname) with
    | true =>
      have h1 : (a :: t).find? (fun x => x.username == uname) = some a :=
        List.find?_cons_of_pos (p := fun x : UserRecord => x.username == uname) t ha
      have hau : a = u := Option.some.inj (h1.symm.trans hfind)
      subst hau
      simp only [setLastLogin, List.map_cons]
      exact List.find?_cons_of_pos (p := fun x : UserRecord => x.username == uname) _
        (by show ((if (a.id == id) then { a with last_login := some now } else a).username
              == uname) = true
            split <;> exact ha)
    | false =>
      have h1 : (a :: t).find? (fun x => x.username == uname) =
          t.find? (fun x => x.username == uname) :=
        List.find?_cons_of_neg (p := fun x : UserRecord => x.username == uname) t (by simp [ha])
      rw [h1] at hfind
      simp only [setLastLogin, List.map_cons]
      rw [List.find?_cons_of_neg (p := fun x : UserRecord => x.username == uname) _
        (by show ¬ ((if (a.id == id) then { a with last_login := some now } else a).username
              == uname) = true
            split <;> simp [ha])]
      exact ih hfind

/-- C10: a successful `verify_user` returns the `last_login` value that was
persisted before the call (the record is fetched before the update), and
the timestamp written by that call only becomes visible to the next
successful `verify_user`. -/
theorem verify_user_returns_previous_last_login (db : DBState) (uname pw : String)
    (now now2 : Nat) (u : UserRecord)
    (hconn : db.connected = true)
    (hfind : db.users.find? (fun x => x.username == uname) = some u)
    (hpw : checkpw pw u.password = true) :
    (verify_user db uname pw now).fst = some ⟨u.username, u.role, u.last_login⟩ ∧
    (verify_user (verify_user db uname pw now).snd uname pw now2).fst =
      some ⟨u.username, u.role, some now⟩ := by
  have hv : verify_user db uname pw now =
      (some ⟨u.username, u.role, u.last_login⟩,
        { db with users := setLastLogin db.users u.id now }) := by
    simp [verify_user, hconn, hfind, hpw]
  refine ⟨by rw [hv], ?_⟩
  rw [hv]
  have hfind2 := find?_setLastLogin db.users uname u u.id now hfind
  simp only [beq_self_eq_true, if_true] at hfind2
  simp [verify_user, hconn, hfind2, hpw]

/-- Witness for C10: Tony's first login returns `last_login = none` (first
login), and a second login returns the timestamp the first one wrote. -/
theorem verify_user_returns_previous_last_login_witness :
    (verify_user dbUp "Tony" "password123" 7).fst =
      some ⟨tonyRecord.username, tonyRecord.role, tonyRecord.last_login⟩ ∧
    (verify_user (verify_user dbUp "Tony" "password123" 7).snd "Tony" "password123" 8).fst =
      some ⟨tonyRecord.username, tonyRecord.role, some 7⟩ :=
  verify_user_returns_previous_last_login dbUp "Tony" "password123" 7 8 tonyRecord
    (by decide) (by decide) (by decide)

/-- C7: provisioning a username that already exists reports failure (the
unique index raises `DuplicateKeyError`, reported as `False`) and leaves
the whole store — the existing record's password hash and role included —
unchanged. -/
theorem add_user_duplicate_unchanged (db : DBState) (uname pw role salt : String)
    (now : Nat) (r : UserRecord) (hr : r ∈ db.users) (hname : r.username = uname) :
    add_user db uname pw role salt now = (false, db) := by
  have hany : db.users.any (fun u => u.username == uname) = true :=
    List.any_eq_true.mpr ⟨r, hr, by simp [hname]⟩
  simp only [add_user, hany, if_true, ite_self]

/-- Witness for C7: provisioning `"Tony"` a second time fails and leaves the
store holding the original record. -/
theorem add_user_duplicate_unchanged_witness :
    add_user dbUp "Tony" "newpass" "finance" "salt1" 9 = (false, dbUp) :=
  add_user_duplicate_unchanged dbUp "Tony" "newpass" "finance" "salt1" 9 tonyRecord
    (by decide) (by decide)

/-- C9: provisioning with non-empty fields stores the lowercased role, so a
user provisioned with role `"Engineering"` is stored with — and later
verified as having — role `"engineering"`. -/
theorem add_user_lowercases_role (db : DBState) (uname pw role salt : String)
    (now now2 : Nat)
    (hu : uname ≠ "") (hp : pw ≠ "") (hrole : role ≠ "")
    (hconn : db.connected = true)
    (hfresh : ∀ x ∈ db.users, (x.username == uname) = false) :
    (add_user db uname pw role salt now).fst = true ∧
    (∃ rec, (add_user db uname pw role salt now).snd.users = db.users ++ [rec] ∧
      rec.username = uname ∧ rec.role = role.toLower) ∧
    (verify_user (add_user db uname pw role salt now).snd uname pw now2).fst =
      some ⟨uname, role.toLower, none⟩ := by
  have hany : db.users.any (fun x => x.username == uname) = false := by
    rw [List.any_eq_false]
    intro x hx
    simp [hfresh x hx]
  have hadd : add_user db uname pw role salt now =
      (true,
        { db with
          users := db.users ++
            [⟨db.nextId, uname, hashpw pw salt, role.toLower, now, none⟩],
          nextId := db.nextId + 1 }) := by
    simp [add_user, hu, hp, hrole, hconn, hany]
  refine ⟨by rw [hadd], ⟨_, by rw [hadd], rfl, rfl⟩, ?_⟩
  rw [hadd]
  have hnone : db.users.find? (fun x => x.username == uname) = none :=
    List.find?_eq_none.mpr (fun x hx => by simp [hfresh x hx])
  simp [verify_user, hconn, hnone, checkpw, hashpw]

/-- Witness for C9: provisioning Tony with role `"Engineering"` into an
empty store records and verifies role `"engineering"`. -/
theorem add_user_lowercases_role_witness :
    (add_user ⟨true, [], 0⟩ "Tony" "password123" "Engineering" "salt0" 1).fst = true ∧
    (∃ rec, (add_user ⟨true, [], 0⟩ "Tony" "password123" "Engineering" "salt0" 1).snd.users =
        [] ++ [rec] ∧
      rec.username = "Tony" ∧ rec.role = "Engineering".toLower) ∧
    (verify_user (add_user ⟨true, [], 0⟩ "Tony" "password123" "Engineering" "salt0" 1).snd
        "Tony" "password123" 2).fst =
      some ⟨"Tony", "Engineering".toLower, none⟩ :=
  add_user_lowercases_role ⟨true, [], 0⟩ "Tony" "password123" "Engineering" "salt0" 1 2
    (by decide) (by decide) (by decide) rfl (by simp)

/-! ### Retrieval theorems -/

/-- Helper: after `main()` of `ingest.py` runs over every department, a
department's persist path holds exactly that department's own documents
followed by the shared `general` ones. -/
theorem ingestMain_apply (fs : FileSystem) (store : ChromaStore) (role : String)
    (hrole : role ∈ departments) :
    ingestMain fs store (persistDir role) = some (roleCollection fs role) := by
  fin_cases hrole <;>
    simp [ingestMain, departments, process_documents, roleCollection, persistDir]

/-- Helper: every document in a role's ingested collection carries either
that role's department label or the shared `"general"` label. -/
theorem roleCollection_department (fs : FileSystem) (role : String) (d : Document)
    (hd : d ∈ roleCollection fs role) :
    d.department = role ∨ d.department = "general" := by
  rcases List.mem_append.mp hd with h | h
  · left
    simp only [deptDocuments, List.mem_map] at h
    obtain ⟨f, _, rfl⟩ := h
    rfl
  · right
    simp only [generalDocuments, List.mem_map] at h
    obtain ⟨f, _, rfl⟩ := h
    rfl

/-- C1: every chunk that retrieval for a role places in front of the
ranking step — and hence every chunk it can return — belongs to the single
collection ingested at that role's partition location, so it was ingested
from the role's own directory or the shared `general` directory and carries
that partition's label; a chunk ingested only into another role's partition
(e.g. finance for an engineering query) is never returned. -/
theorem retrieve_within_role_partition (fs : FileSystem) (store : ChromaStore)
    (sim : String → String → ℚ) (key : String) (role q : String) (k : Nat)
    (res : List (Document × ℚ)) (ds : Document × ℚ)
    (hrole : role ∈ departments)
    (hres : retrieve sim (some key) (ingestMain fs store) role q k = Except.ok res)
    (hds : ds ∈ res) :
    ds.1 ∈ roleCollection fs role ∧
      (ds.1.department = role ∨ ds.1.department = "general") := by
  have hload : load_vector_index (some key) (ingestMain fs store) role =
      Except.ok ⟨appEmbedModel, roleCollection fs role⟩ := by
    simp [load_vector_index, ingestMain_apply fs store role hrole]
  simp only [retrieve, hload, Except.map] at hres
  have hform : rankTopK sim q (roleCollection fs role) k = res := Except.ok.inj hres
  subst hform
  simp only [rankTopK] at hds
  have h1 : ds ∈ List.insertionSort scoreGE (scoreDocs sim q (roleCollection fs role)) :=
    List.mem_of_mem_take hds
  have h2 : ds ∈ scoreDocs sim q (roleCollection fs role) :=
    (List.mem_insertionSort scoreGE).mp h1
  simp only [scoreDocs, List.mem_map] at h2
  obtain ⟨d, hdmem, rfl⟩ := h2
  exact ⟨hdmem, roleCollection_department fs role d hdmem⟩

/-- The directory tree used to witness the security invariant: disjoint
marker chunks for engineering, finance and general. -/
def fsW : FileSystem := fun dir =>
  if dir = "engineering" then [⟨"eng.md", ".md", "ENG-MARKER"⟩]
  else if dir = "finance" then [⟨"fin.md", ".md", "FIN-MARKER"⟩]
  else if dir = "general" then [⟨"gen.txt", ".txt", "GEN-MARKER"⟩]
  else []

/-- A degenerate similarity scoring (all ties), exercising stable order. -/
def simW : String → String → ℚ := fun _ _ => 0

/-- The engineering marker document as ingested from `fsW`. -/
def engDocW : Document := ⟨"ENG-MARKER", "eng.md", "engineering", "department_specific"⟩

/-- The shared general marker document as ingested from `fsW`. -/
def genDocW : Document := ⟨"GEN-MARKER", "gen.txt", "general", "general"⟩

/-- Witness for C1: the first chunk retrieved for `"engineering"` over the
ingested `fsW` store lies in the engineering collection and is labelled
`"engineering"` or `"general"` — in particular it is not the finance
marker. -/
theorem retrieve_within_role_partition_witness :
    engDocW ∈ roleCollection fsW "engineering" ∧
      (engDocW.department = "engineering" ∨ engDocW.department = "general") :=
  retrieve_within_role_partition fsW emptyStore simW "key" "engineering" "q" 3
    [(engDocW, 0), (genDocW, 0)] (engDocW, 0) (by decide) (by rfl) (by decide)

/-- C6: retrieval returns at most `k` results, sorted by non-increasing
score, and two calls with identical inputs against the same unchanged store
return identical ordered results. -/
theorem retrieve_topk_sorted_deterministic (sim : String → String → ℚ)
    (key : Option String) (store : ChromaStore) (role q : String) (k : Nat)
    (res res2 : List (Document × ℚ))
    (hres : retrieve sim key store role q k = Except.ok res)
    (hres2 : retrieve sim key store role q k = Except.ok res2) :
    res.length ≤ k ∧ res.Sorted scoreGE ∧ res = res2 := by
  have hdet : res = res2 := by
    have h := hres.symm.trans hres2
    exact Except.ok.inj h
  rcases hload : load_vector_index key store role with e | idx
  · rw [retrieve, hload] at hres
    simp [Except.map] at hres
  · simp only [retrieve, hload, Except.map] at hres
    have hform : rankTopK sim q idx.docs k = res := Except.ok.inj hres
    subst hform
    refine ⟨List.length_take_le _ _, ?_, hdet⟩
    exact List.Pairwise.sublist (List.take_sublist _ _)
      (List.sorted_insertionSort scoreGE (scoreDocs sim q idx.docs))

/-- A store as `load_vector_index` would see it after ingesting `fsW`
(only the engineering partition populated). -/
def storeW : ChromaStore :=
  fun p => if p = persistDir "engineering" then some [engDocW, genDocW] else none

/-- A similarity scoring that ranks the general marker above the
engineering one. -/
def simW2 : String → String → ℚ := fun _ t => if t = "GEN-MARKER" then 5 else 1

/-- Witness for C6: a concrete two-chunk retrieval returns 2 ≤ 3 results in
descending score order, and a repeated identical call returns the same
list. -/
theorem retrieve_topk_sorted_deterministic_witness :
    ([(genDocW, (5 : ℚ)), (engDocW, 1)] : List (Document × ℚ)).length ≤ 3 ∧
    ([(genDocW, (5 : ℚ)), (engDocW, 1)] : List (Document × ℚ)).Sorted scoreGE ∧
    ([(genDocW, (5 : ℚ)), (engDocW, 1)] : List (Document × ℚ)) =
      [(genDocW, 5), (engDocW, 1)] :=
  retrieve_topk_sorted_deterministic simW2 (some "key") storeW "engineering" "q" 3
    [(genDocW, 5), (engDocW, 1)] [(genDocW, 5), (engDocW, 1)] (by rfl) (by rfl)
